import Mathlib

/-!
Verification of the Event Pattern Engine of this repository.

The definitions below are shallow embeddings of the Python sources:
* `analysis/log_analyzer.py` — `LogEvent`, `PatternDetector` (the four
  detectors, `analyze_event`) and `LogAnalyzer.analyze_log_file`;
* `hooks/session_improvement.py` — `analyze_session` and its helpers
  (`detect_patterns`, `find_tool_sequences`, `find_error_patterns`,
  `calculate_session_metrics`).

Python floats are modelled as `Rat`; Python lists as `List`; dictionaries
that detectors index by string keys as association lists or functions out
of `String`.  A value read from JSON that may not be a string (the `error`
payload of an event) is modelled by `PyVal`; calling a string method on a
non-string raises, which is modelled with `Except String`.
-/

/-- A dynamically typed JSON scalar stored in the `data` mapping of an event.
Only the shapes the detectors can encounter matter: strings and
non-strings (represented by integers). -/
inductive PyVal where
  | pstr (s : String) : PyVal
  | pint (n : Int) : PyVal
deriving DecidableEq

/-- Python truthiness of a `PyVal`: a string is truthy iff non-empty, an
integer iff non-zero. -/
def PyVal.truthy : PyVal → Bool
  | .pstr s => s ≠ ""
  | .pint n => n ≠ 0

/-- Whether a `PyVal` is a string. -/
def PyVal.isStr : PyVal → Bool
  | .pstr _ => true
  | .pint _ => false

/-- Python `l[-n:]`: the suffix of the most recent `n` elements. -/
def takeLast (n : Nat) (l : List α) : List α :=
  l.drop (l.length - n)

/-- Insert into a sorted list, keeping it sorted (ascending). -/
def insertSorted (a : Rat) : List Rat → List Rat
  | [] => [a]
  | b :: l => if a ≤ b then a :: b :: l else b :: insertSorted a l

/-- Sort a list of rationals ascending (insertion sort). -/
def sortRat (l : List Rat) : List Rat :=
  l.foldr insertSorted []

/-- `np.median`: sort; middle element for odd length, mean of the two
middle elements for even length. -/
def median (l : List Rat) : Rat :=
  let s := sortRat l
  let n := s.length
  if n % 2 = 1 then s.getD (n / 2) 0
  else (s.getD (n / 2 - 1) 0 + s.getD (n / 2) 0) / 2

/-- `str.lower()`, character by character. -/
def strLower (s : String) : String :=
  String.mk (s.data.map Char.toLower)

/-- Split a character list on whitespace runs, accumulating the current
word in reverse. -/
def splitWSAux : List Char → List Char → List String
  | [], acc => if acc = [] then [] else [String.mk acc.reverse]
  | c :: cs, acc =>
      if c.isWhitespace then
        if acc = [] then splitWSAux cs []
        else String.mk acc.reverse :: splitWSAux cs []
      else splitWSAux cs (c :: acc)

/-- `text.lower().split()`: case-fold, then split on whitespace runs,
discarding empty tokens (`str.split()` with no argument drops them). -/
def pyWords (s : String) : List String :=
  splitWSAux (strLower s).data []

/-- `set(text.lower().split())`: the case-folded token set. -/
def tokens (s : String) : Finset String :=
  (pyWords s).toFinset

/-- `PatternDetector._similarity_score` on two strings: Jaccard similarity
of the token sets, `0.0` if either token set is empty. -/
def similarity_score (text1 text2 : String) : Rat :=
  let words1 := tokens text1
  let words2 := tokens text2
  if words1 = ∅ ∨ words2 = ∅ then 0
  else if words1 ∪ words2 = ∅ then 0
  else ((words1 ∩ words2).card : Rat) / ((words1 ∪ words2).card : Rat)

/-- `_similarity_score` applied to dynamic values: `text.lower()` raises
`AttributeError` when either argument is not a string. -/
def similarityScoreDyn : PyVal → PyVal → Except String Rat
  | .pstr a, .pstr b => .ok (similarity_score a b)
  | _, _ => .error "AttributeError: object has no attribute lower"

/-- The `LogEvent` dataclass, with the `data` fields the detectors read
lifted to typed fields (`data.get(tool_name)`, `data.get(error)`,
`data.get(agent_name)`, `data.get(success)`). -/
structure LogEvent where
  event_type : String
  session_id : String
  timestamp : String
  tool_name : Option String
  error : Option PyVal
  agent_name : Option String
  success : Option Bool
  metrics : List (String × Rat)
deriving DecidableEq

/-- `dict.get(key, default)` on a metrics mapping. -/
def mget (m : List (String × Rat)) (k : String) (d : Rat) : Rat :=
  (m.lookup k).getD d

/-- The mutable state of a `PatternDetector`: `command_timings` and
`agent_success_rates` are `defaultdict(list)` (default `[]`), and
`recent_events` is a `deque(maxlen=1000)`. -/
structure DetState where
  command_timings : String → List Rat
  agent_success_rates : String → List Bool
  recent_events : List LogEvent

/-- A fresh `PatternDetector()`. -/
def initDetState : DetState :=
  { command_timings := fun _ => []
    agent_success_rates := fun _ => []
    recent_events := [] }

/-- One entry of the list returned by `_detect_performance_issues`. -/
structure PerfIssue where
  type : String
  tool_name : String
  execution_time : Rat
  baseline : Rat
  severity : String
deriving DecidableEq

/-- `PatternDetector._detect_performance_issues`: for `tool_use` events
with a truthy (non-empty) metrics dict, record
`metrics.get(execution_time, 0)` under the tool name, then compare
against the median of the last 20 recorded timings once more than 5 are
available. -/
def detect_performance_issues (st : DetState) (event : LogEvent) :
    DetState × List PerfIssue :=
  if event.event_type = "tool_use" ∧ event.metrics ≠ [] then
    let execution_time := mget event.metrics "execution_time" 0
    let tool_name := event.tool_name.getD "unknown"
    let timings := st.command_timings tool_name ++ [execution_time]
    let st' := { st with
      command_timings := fun k => if k = tool_name then timings else st.command_timings k }
    let recent_timings := takeLast 20 timings
    if recent_timings.length > 5 then
      let baseline := median recent_timings
      if execution_time > baseline * 2 then
        (st', [{ type := "slow_tool_execution"
                 tool_name := tool_name
                 execution_time := execution_time
                 baseline := baseline
                 severity := if execution_time > baseline * 3 then "high" else "medium" }])
      else (st', [])
    else (st', [])
  else (st, [])

/-- One entry of the list returned by `_detect_error_patterns`. -/
structure ErrFinding where
  type : String
  tool_name : String
  error_message : PyVal
  occurrence_count : Nat
  severity : String
deriving DecidableEq

/-- The list comprehension inside `_detect_error_patterns`: walk the
recent-event window in order, keeping `tool_use` events with a truthy
error whose similarity to the current message exceeds `0.8`; evaluating
the similarity of a non-string error raises. -/
def collectSimilar (msg : PyVal) : List LogEvent → Except String (List LogEvent)
  | [] => .ok []
  | e :: rest =>
    if e.event_type = "tool_use" ∧ (e.error.elim false PyVal.truthy) = true then
      match e.error with
      | some v => do
          let s ← similarityScoreDyn v msg
          let tail ← collectSimilar msg rest
          if s > 0.8 then .ok (e :: tail) else .ok tail
      | none => collectSimilar msg rest
    else collectSimilar msg rest

/-- `PatternDetector._detect_error_patterns`, reading the recent-event
window (which already contains the current event). -/
def detect_error_patterns (recent : List LogEvent) (event : LogEvent) :
    Except String (List ErrFinding) :=
  match event.error with
  | some v =>
      if event.event_type = "tool_use" ∧ v.truthy = true then do
        let similar_errors ← collectSimilar v recent
        if similar_errors.length > 3 then
          .ok [{ type := "recurring_error"
                 tool_name := event.tool_name.getD "unknown"
                 error_message := v
                 occurrence_count := similar_errors.length
                 severity := "high" }]
        else .ok []
      else .ok []
  | none => .ok []

/-- One entry of the list returned by `_detect_success_indicators`. -/
structure SuccessInd where
  type : String
  agent_name : String
  success_rate : Rat
  sample_size : Nat
deriving DecidableEq

/-- `PatternDetector._detect_success_indicators`: record the boolean
success of `agent_complete` events and flag agents whose mean success
over the last 10 recordings exceeds `0.8` once at least 5 are
available. -/
def detect_success_indicators (st : DetState) (event : LogEvent) :
    DetState × List SuccessInd :=
  if event.event_type = "agent_complete" then
    let agent_name := event.agent_name.getD "unknown"
    let success := event.success.getD false
    let flags := st.agent_success_rates agent_name ++ [success]
    let st' := { st with
      agent_success_rates := fun k => if k = agent_name then flags else st.agent_success_rates k }
    let recent_successes := takeLast 10 flags
    if recent_successes.length ≥ 5 then
      let success_rate : Rat :=
        (recent_successes.countP (· = true) : Rat) / (recent_successes.length : Rat)
      if success_rate > 0.8 then
        (st', [{ type := "high_success_agent"
                 agent_name := agent_name
                 success_rate := success_rate
                 sample_size := recent_successes.length }])
      else (st', [])
    else (st', [])
  else (st, [])

/-- One entry of the list returned by `_detect_anomalies`. -/
structure Anomaly where
  type : String
  session_duration : Rat
  baseline_median : Rat
  severity : String
deriving DecidableEq

/-- `PatternDetector._detect_anomalies`.  The isolation-forest
classification is an external model call, abstracted as the parameter
`iso samples candidate` returning `true` when the candidate is classified
an outlier. -/
def detect_anomalies (iso : List Rat → Rat → Bool) (recent : List LogEvent)
    (event : LogEvent) : List Anomaly :=
  if event.event_type = "session_end" then
    let session_duration := mget event.metrics "session_duration" 0
    let recent_durations :=
      (recent.filter (fun e => e.event_type = "session_end" ∧ e.metrics ≠ [])).map
        (fun e => mget e.metrics "session_duration" 0)
    if recent_durations.length > 10 then
      if iso recent_durations session_duration then
        [{ type := "unusual_session_duration"
           session_duration := session_duration
           baseline_median := median recent_durations
           severity := "medium" }]
      else []
    else []
  else []

/-- The analysis dictionary built by `analyze_event`. -/
structure Analysis where
  performance_issues : List PerfIssue
  error_patterns : List ErrFinding
  success_indicators : List SuccessInd
  anomalies : List Anomaly
deriving DecidableEq

/-- Whether any of the four lists of an analysis is non-empty
(`any(event_analysis.values())`). -/
def Analysis.nonempty (a : Analysis) : Bool :=
  a.performance_issues ≠ [] ∨ a.error_patterns ≠ [] ∨
    a.success_indicators ≠ [] ∨ a.anomalies ≠ []

/-- `PatternDetector.analyze_event`: append the event to the bounded
recent-event window, then run the four detectors in order.  There is no
exception handling here: a detector failure propagates to the caller. -/
def analyze_event (iso : List Rat → Rat → Bool) (st : DetState) (event : LogEvent) :
    Except String (DetState × Analysis) := do
  let recent := takeLast 1000 (st.recent_events ++ [event])
  let st0 := { st with recent_events := recent }
  let (st1, perf) := detect_performance_issues st0 event
  let errs ← detect_error_patterns recent event
  let (st2, succ) := detect_success_indicators st1 event
  let anom := detect_anomalies iso recent event
  .ok (st2, { performance_issues := perf
              error_patterns := errs
              success_indicators := succ
              anomalies := anom })

/-- The event loop of `LogAnalyzer.analyze_log_file`: analyze each event
in order, collecting the (event, analysis) pairs where some detector
found something.  An exception from `analyze_event` propagates. -/
def processEvents (iso : List Rat → Rat → Bool) :
    DetState → List LogEvent → Except String (DetState × List (LogEvent × Analysis))
  | st, [] => .ok (st, [])
  | st, e :: rest => do
      let (st', a) ← analyze_event iso st e
      let (stf, ps) ← processEvents iso st' rest
      .ok (stf, (if a.nonempty then [(e, a)] else []) ++ ps)

/-- `LogAnalyzer.analyze_log_file`, restricted to its analytic core: run
the event loop on the already-parsed events of the file and return the
collected patterns.  The surrounding `try`/`except` catches any exception
from the loop and turns the whole analysis into an error result, so a
failure on one event discards all findings of the file. -/
def analyze_log_file (iso : List Rat → Rat → Bool) (events : List LogEvent) :
    Except String (List (LogEvent × Analysis)) :=
  match processEvents iso initDetState events with
  | .ok (_, ps) => .ok ps
  | .error m => .error ("Failed to analyze log file: " ++ m)

/-!
## Embedding of `hooks/session_improvement.py`
-/

/-- One session log entry, with the dictionary fields the analysis
functions read lifted to typed fields. -/
structure SLog where
  session_id : String
  timestamp : Option String
  tool_name : Option String
  success : Option Bool
  error : Option String
  execution_time : Option Rat
deriving DecidableEq

/-- Python truthiness of `log.get(tool_name)`: present and non-empty. -/
def toolOf (log : SLog) : Option String :=
  log.tool_name.bind (fun s => if s = "" then none else some s)

/-- One pattern record produced by `detect_patterns`. -/
inductive Pattern where
  | tool_sequence (sequence : List String) (occurrences : Nat)
      (potential_command : Bool) (suggested_name : String) : Pattern
  | error_retry (tool : Option String) (error : String)
      (potential_hook : Bool) (suggested_improvement : String) : Pattern
deriving DecidableEq

/-- `str.replace(" ", "_")`: the pattern is a single character, so this
is a character map. -/
def replaceSpace (s : String) : String :=
  String.mk (s.data.map (fun c => if c = ' ' then '_' else c))

/-- `f"{sequence[0]}_{sequence[-1]}_flow".lower().replace(" ", "_")`. -/
def suggestedName (first last : String) : String :=
  replaceSpace (strLower (first ++ "_" ++ last ++ "_flow"))

/-- The window at index `i`: the ordered triple of tool names when
`logs[i]`, `logs[i+1]`, `logs[i+2]` all carry a truthy `tool_name`. -/
def tripleAt (logs : List SLog) (i : Nat) : Option (String × String × String) :=
  match logs.get? i, logs.get? (i + 1), logs.get? (i + 2) with
  | some a, some b, some c =>
    match toolOf a, toolOf b, toolOf c with
    | some x, some y, some z => some (x, y, z)
    | _, _, _ => none
  | _, _, _ => none

/-- All length-3 windows of consecutive tool-bearing entries, in order
(`for i in range(len(logs) - 2)`). -/
def toolTriples (logs : List SLog) : List (String × String × String) :=
  (List.range (logs.length - 2)).filterMap (tripleAt logs)

/-- First-occurrence deduplication: the iteration order of a Python
`Counter` built from the triples. -/
def uniqueFirst [DecidableEq α] (l : List α) : List α :=
  l.foldl (fun acc t => if t ∈ acc then acc else acc ++ [t]) []

/-- Pattern 1 of `detect_patterns`: distinct triples occurring at least
twice become `tool_sequence` pattern records. -/
def toolSequencePatterns (logs : List SLog) : List Pattern :=
  let ts := toolTriples logs
  (uniqueFirst ts).filterMap (fun t =>
    if ts.count t ≥ 2 then
      some (.tool_sequence [t.1, t.2.1, t.2.2] (ts.count t) true (suggestedName t.1 t.2.2))
    else none)

/-- Pattern 2 of `detect_patterns`: an entry with `success == False`
immediately followed by an entry with the same raw `tool_name`. -/
def errorRetryPatterns (logs : List SLog) : List Pattern :=
  (List.range (logs.length - 2)).filterMap (fun i =>
    match logs.get? i, logs.get? (i + 1) with
    | some a, some b =>
        if a.success = some false ∧ b.tool_name = a.tool_name then
          some (.error_retry a.tool_name (a.error.getD "Unknown error") true
            "Add validation or error prevention")
        else none
    | _, _ => none)

/-- `detect_patterns`: tool-sequence patterns followed by error-retry
patterns. -/
def detect_patterns (logs : List SLog) : List Pattern :=
  toolSequencePatterns logs ++ errorRetryPatterns logs

/-- One element of `current_sequence` in `find_tool_sequences`. -/
structure ToolEntry where
  tool : String
  success : Bool
  timestamp : Option String
deriving DecidableEq

/-- One workflow record emitted by `find_tool_sequences`.  `id` is the
truncated MD5 of the JSON-dumped tool list, supplied externally as the
parameter `h`. -/
structure SeqRec where
  id : String
  length : Nat
  tools : List String
  success_rate : Rat
  potential_agent : Bool
deriving DecidableEq

/-- The workflow record built from a full `current_sequence`. -/
def mkSeqRec (h : List String → String) (cur : List ToolEntry) : SeqRec :=
  { id := h (cur.map (·.tool))
    length := cur.length
    tools := cur.map (·.tool)
    success_rate := (cur.countP (·.success = true) : Rat) / (cur.length : Rat)
    potential_agent := true }

/-- The entry accumulated for a tool-bearing log
(`success` defaults to `True` here). -/
def entryOf (log : SLog) : Option ToolEntry :=
  (toolOf log).map (fun tn =>
    { tool := tn, success := log.success.getD true, timestamp := log.timestamp })

/-- One accumulation step of `find_tool_sequences` on a tool entry:
append; once the sequence reaches length 5 emit a record and restart
from the last 2 entries. -/
def entStep (h : List String → String) (s : List ToolEntry × List SeqRec)
    (ent : ToolEntry) : List ToolEntry × List SeqRec :=
  let cur := s.1 ++ [ent]
  if cur.length ≥ 5 then (takeLast 2 cur, s.2 ++ [mkSeqRec h cur])
  else (cur, s.2)

/-- One loop iteration of `find_tool_sequences`: entries without a truthy
`tool_name` leave the state unchanged. -/
def ftsStep (h : List String → String) (s : List ToolEntry × List SeqRec)
    (log : SLog) : List ToolEntry × List SeqRec :=
  match entryOf log with
  | none => s
  | some ent => entStep h s ent

/-- `find_tool_sequences`. -/
def find_tool_sequences (h : List String → String) (logs : List SLog) : List SeqRec :=
  (logs.foldl (ftsStep h) ([], [])).2

/-- One error group of `find_error_patterns`. -/
structure ErrGroup where
  tool : Option String
  error : Option String
  occurrences : Nat
  timestamps : List (Option String)
deriving DecidableEq

/-- `f"{value}"` of an optional string (`None` prints as `"None"`). -/
def fstr : Option String → String
  | none => "None"
  | some s => s

/-- The grouping key: the tool name and the first 50 characters of the
error, joined by a colon (an absent tool name prints as None, an absent
error defaults to unknown). -/
def errKey (log : SLog) : String :=
  fstr log.tool_name ++ ":" ++ (log.error.getD "unknown").take 50

/-- Update the ordered association list of error groups with one failed
log entry (create the group on first sight, then count and record the
timestamp). -/
def addErr (groups : List (String × ErrGroup)) (log : SLog) : List (String × ErrGroup) :=
  if log.success.getD true = true then groups
  else
    let key := errKey log
    if (groups.lookup key).isSome then
      groups.map (fun kg =>
        if kg.1 = key then
          (kg.1, { kg.2 with
            occurrences := kg.2.occurrences + 1
            timestamps := kg.2.timestamps ++ [log.timestamp] })
        else kg)
    else
      groups ++ [(key, { tool := log.tool_name, error := log.error,
                         occurrences := 1, timestamps := [log.timestamp] })]

/-- One record produced by `find_error_patterns`. -/
structure ErrPat where
  tool : Option String
  error : Option String
  occurrences : Nat
  timestamps : List (Option String)
  potential_hook : Bool
  suggested_hook_type : String
  recommendation : String
deriving DecidableEq

/-- The output pass of `find_error_patterns`: groups seen at least twice
become records; building the recommendation slices
`error_data[error][:100]`, which raises when the stored error is
`None`. -/
def emitErrPats : List (String × ErrGroup) → Except String (List ErrPat)
  | [] => .ok []
  | (_, g) :: rest =>
      if g.occurrences ≥ 2 then
        match g.error with
        | none => .error "TypeError: NoneType object is not subscriptable"
        | some er => do
            let tail ← emitErrPats rest
            .ok ({ tool := g.tool, error := g.error, occurrences := g.occurrences,
                   timestamps := g.timestamps, potential_hook := true,
                   suggested_hook_type := "PreToolUse",
                   recommendation :=
                     "Add validation to prevent \x27" ++ er.take 100 ++ "\x27" } :: tail)
      else emitErrPats rest

/-- `find_error_patterns`. -/
def find_error_patterns (logs : List SLog) : Except String (List ErrPat) :=
  emitErrPats (logs.foldl addErr [])

/-- The `longest_operation` entry of the session metrics. -/
structure LongestOp where
  tool : Option String
  time : Rat
deriving DecidableEq

/-- The session metrics dictionary. -/
structure SessionMetrics where
  total_tools_used : Nat
  unique_tools : Nat
  error_rate : Rat
  total_execution_time : Rat
  average_execution_time : Rat
  longest_operation : Option LongestOp
deriving DecidableEq

/-- `max(tool_logs, key=lambda x: x.get(execution_time, 0))`: the first
entry attaining the maximal execution time. -/
def maxByExec (first : SLog) (rest : List SLog) : SLog :=
  rest.foldl (fun best l =>
    if (l.execution_time.getD 0) > (best.execution_time.getD 0) then l else best) first

/-- `calculate_session_metrics`. -/
def calculate_session_metrics (logs : List SLog) : SessionMetrics :=
  let tool_logs := logs.filter (fun l => (toolOf l).isSome)
  let base : SessionMetrics :=
    { total_tools_used := tool_logs.length
      unique_tools := (logs.filterMap toolOf).dedup.length
      error_rate := 0
      total_execution_time := 0
      average_execution_time := 0
      longest_operation := none }
  match tool_logs with
  | [] => base
  | l0 :: ls =>
      let error_count := (l0 :: ls).countP (fun l => l.success.getD true = false)
      let withErr := { base with
        error_rate := (error_count : Rat) / ((l0 :: ls).length : Rat) }
      let execution_times :=
        (l0 :: ls).filterMap (fun l =>
          l.execution_time.bind (fun t => if t = 0 then none else some t))
      if execution_times = [] then withErr
      else
        let total := execution_times.foldl (· + ·) 0
        let maxLog := maxByExec l0 ls
        { withErr with
          total_execution_time := total
          average_execution_time := total / (execution_times.length : Rat)
          longest_operation := some { tool := maxLog.tool_name
                                      time := maxLog.execution_time.getD 0 } }

/-- The analysis dictionary built by `analyze_session` (lines 36-44),
given the already-loaded, timestamp-sorted logs of the session.  `now` is
the wall-clock timestamp `datetime.now().isoformat()`. -/
structure SessionReport where
  session_id : String
  timestamp : String
  total_events : Nat
  patterns : List Pattern
  tool_sequences : List SeqRec
  error_sequences : List ErrPat
  metrics : SessionMetrics
deriving DecidableEq

/-- The analytic core of `analyze_session` over the log list of the
session. -/
def analyze_session (h : List String → String) (now sid : String)
    (logs : List SLog) : Except String SessionReport :=
  (find_error_patterns logs).map (fun errs =>
    { session_id := sid
      timestamp := now
      total_events := logs.length
      patterns := detect_patterns logs
      tool_sequences := find_tool_sequences h logs
      error_sequences := errs
      metrics := calculate_session_metrics logs })

/-- The caller-visible content of a report: everything except the
wall-clock timestamp. -/
def sessionContent (r : SessionReport) :
    List Pattern × List SeqRec × List ErrPat × SessionMetrics :=
  (r.patterns, r.tool_sequences, r.error_sequences, r.metrics)

/-!
## C9 — the similarity scorer
-/

/-- C9: `_similarity_score` is Jaccard similarity `|A ∩ B| / |A ∪ B|` over
case-folded whitespace-tokenized word sets; it is symmetric, lies in
`[0, 1]`, returns `0` whenever either token set is empty, and equals `1`
on any string with a non-empty token set compared with itself. -/
theorem similarity_score_jaccard_props (a b : String) :
    similarity_score a b = similarity_score b a ∧
    0 ≤ similarity_score a b ∧ similarity_score a b ≤ 1 ∧
    ((tokens a = ∅ ∨ tokens b = ∅) → similarity_score a b = 0) ∧
    (tokens a ≠ ∅ → similarity_score a a = 1) ∧
    (tokens a ≠ ∅ → tokens b ≠ ∅ →
      similarity_score a b =
        ((tokens a ∩ tokens b).card : Rat) / ((tokens a ∪ tokens b).card : Rat)) := by
  refine ⟨?_, ?_, ?_, ?_, ?_, ?_⟩
  · unfold similarity_score
    by_cases h1 : tokens a = ∅ <;> by_cases h2 : tokens b = ∅ <;>
      simp [h1, h2, Finset.inter_comm, Finset.union_comm]
  · unfold similarity_score
    by_cases h1 : tokens a = ∅ <;> by_cases h2 : tokens b = ∅ <;>
        simp [h1, h2, Finset.union_eq_empty]
    positivity
  · unfold similarity_score
    by_cases h1 : tokens a = ∅ <;> by_cases h2 : tokens b = ∅ <;>
        simp [h1, h2, Finset.union_eq_empty]
    have hpos : (0 : Rat) < ((tokens a ∪ tokens b).card : Rat) := by
      have h : 0 < (tokens a ∪ tokens b).card := by
        apply Finset.card_pos.mpr
        apply Finset.nonempty_iff_ne_empty.mpr
        simp [Finset.union_eq_empty, h1, h2]
      exact_mod_cast h
    rw [div_le_one hpos]
    exact_mod_cast Finset.card_le_card Finset.inter_subset_union
  · intro h
    unfold similarity_score
    simp [h]
  · intro h
    unfold similarity_score
    have hu : ¬(tokens a = ∅ ∨ tokens a = ∅) := by simp [h]
    rw [if_neg hu, Finset.inter_self, Finset.union_self, if_neg h]
    have : ((tokens a).card : Rat) ≠ 0 := by
      have : 0 < (tokens a).card :=
        Finset.card_pos.mpr (Finset.nonempty_iff_ne_empty.mpr h)
      exact_mod_cast this.ne'
    exact div_self this
  · intro h1 h2
    unfold similarity_score
    have hu : tokens a ∪ tokens b ≠ ∅ := by
      intro hu
      exact h1 (Finset.union_eq_empty.mp hu).1
    rw [if_neg (by simp [h1, h2]), if_neg hu]

/-- Witness for C9 at concrete strings. -/
theorem similarity_score_jaccard_props_witness :
    tokens "Connection timeout" ≠ ∅ ∧ tokens "timeout again" ≠ ∅ ∧
    similarity_score "Connection timeout" "Connection timeout" = 1 ∧
    similarity_score "" "x" = 0 := by
  refine ⟨by decide, by decide, ?_, ?_⟩
  · exact (similarity_score_jaccard_props "Connection timeout" "timeout again").2.2.2.2.1
      (by decide)
  · exact (similarity_score_jaccard_props "" "x").2.2.2.1 (Or.inl (by decide))

/-!
## Helper lemmas
-/

/-- The length of a `[-n:]` slice. -/
theorem takeLast_length (n : Nat) (l : List α) :
    (takeLast n l).length = min n l.length := by
  simp only [takeLast, List.length_drop]
  omega

/-!
## C8 — idempotence of the session analysis
-/

/-- C8: the caller-visible content of `analyze_session` (patterns, tool
sequences, error sequences, session metrics) is a pure function of the
log list: only the wall-clock `timestamp` field differs between two calls
on the same immutable list. -/
theorem analyze_session_idempotent (h : List String → String)
    (now1 now2 sid : String) (logs : List SLog) :
    (analyze_session h now1 sid logs).map sessionContent =
      (analyze_session h now2 sid logs).map sessionContent := by
  unfold analyze_session
  cases find_error_patterns logs <;> rfl


/-!
## C5 — the success-streak detector
-/

/-- The flag history of the agent of the event after recording the
success flag of this event. -/
def newFlags (st : DetState) (event : LogEvent) : List Bool :=
  st.agent_success_rates (event.agent_name.getD "unknown") ++ [event.success.getD false]

/-- The last 10 recorded flags of the agent of the event. -/
def recentFlags (st : DetState) (event : LogEvent) : List Bool :=
  takeLast 10 (newFlags st event)

/-- The mean success rate over the last 10 recorded flags. -/
def succRate (st : DetState) (event : LogEvent) : Rat :=
  ((recentFlags st event).countP (· = true) : Rat) / ((recentFlags st event).length : Rat)

/-- C5: for `agent_complete` events, no `high_success_agent` finding is
emitted while fewer than 5 success flags are recorded for the agent
(counting the one recorded for this event); once at least 5 exist, the
finding — carrying the rate and the sample size — is emitted exactly when
the mean of the last 10 recorded flags exceeds `0.8`. -/
theorem high_success_streak_iff (st : DetState) (event : LogEvent)
    (ht : event.event_type = "agent_complete") :
    ((newFlags st event).length < 5 → (detect_success_indicators st event).2 = []) ∧
    (5 ≤ (newFlags st event).length →
      ((succRate st event > 0.8 →
        (detect_success_indicators st event).2 =
          [{ type := "high_success_agent", agent_name := event.agent_name.getD "unknown",
             success_rate := succRate st event,
             sample_size := (recentFlags st event).length }]) ∧
       (¬ succRate st event > 0.8 → (detect_success_indicators st event).2 = []))) := by
  constructor
  · intro h5
    have hc : ¬ ((takeLast 10 (st.agent_success_rates (event.agent_name.getD "unknown") ++
        [event.success.getD false])).length ≥ 5) := by
      rw [takeLast_length]
      simp only [newFlags] at h5
      omega
    unfold detect_success_indicators
    rw [if_pos ht]
    dsimp only
    rw [if_neg hc]
  · intro h5
    have hc : (takeLast 10 (st.agent_success_rates (event.agent_name.getD "unknown") ++
        [event.success.getD false])).length ≥ 5 := by
      rw [takeLast_length]
      simp only [newFlags] at h5
      omega
    constructor
    · intro hrate
      simp only [succRate, recentFlags, newFlags] at hrate
      unfold detect_success_indicators
      rw [if_pos ht]
      dsimp only
      rw [if_pos hc, if_pos hrate]
      simp only [succRate, recentFlags, newFlags]
    · intro hrate
      simp only [succRate, recentFlags, newFlags] at hrate
      unfold detect_success_indicators
      rw [if_pos ht]
      dsimp only
      rw [if_pos hc, if_neg hrate]

/-- Concrete state for the C5 witness: agent `A` has 4 recorded
successes, agent `B` has 3. -/
def stSucc : DetState :=
  { initDetState with
    agent_success_rates := fun k =>
      if k = "A" then [true, true, true, true]
      else if k = "B" then [true, true, true] else [] }

/-- An `agent_complete` event for agent `A` succeeding. -/
def evA : LogEvent :=
  { event_type := "agent_complete", session_id := "s", timestamp := "t",
    tool_name := none, error := none, agent_name := some "A",
    success := some true, metrics := [] }

/-- An `agent_complete` event for agent `B` succeeding. -/
def evB : LogEvent :=
  { event_type := "agent_complete", session_id := "s", timestamp := "t",
    tool_name := none, error := none, agent_name := some "B",
    success := some true, metrics := [] }

/-- Witness for C5: the fifth consecutive success of agent `A` emits the
finding with rate `1.0` and sample size 5; agent `B`, with only 4
recorded samples, emits nothing. -/
theorem high_success_streak_iff_witness :
    (detect_success_indicators stSucc evA).2 =
      [{ type := "high_success_agent", agent_name := "A",
         success_rate := 1, sample_size := 5 }] ∧
    (detect_success_indicators stSucc evB).2 = [] := by
  constructor
  · have h := ((high_success_streak_iff stSucc evA rfl).2
        (by norm_num [newFlags, stSucc, evA, initDetState])).1
        (by norm_num [succRate, recentFlags, newFlags, stSucc, evA, initDetState,
          takeLast, List.countP_cons])
    rw [h]
    norm_num [succRate, recentFlags, newFlags, stSucc, evA, initDetState,
      takeLast, List.countP_cons]
  · refine (high_success_streak_iff stSucc evB rfl).1 ?_
    norm_num [newFlags, stSucc, evB, initDetState]
    rw [if_neg (by decide : ¬("B" : String) = "A")]
    decide

/-!
## C3 — the performance-regression detector
-/

/-- C3: for a `tool_use` event carrying an `execution_time` metric `x`,
no `slow_tool_execution` finding is emitted while fewer than 6 timings
are recorded for the tool (counting the one of this event); once at least 6 exist
the finding is emitted exactly when `x` exceeds twice the median of the
last 20 recorded timings, with severity `high` exactly when `x` exceeds
three times that median and `medium` otherwise. -/
theorem slow_execution_iff (st : DetState) (event : LogEvent) (x : Rat)
    (ht : event.event_type = "tool_use")
    (hx : event.metrics.lookup "execution_time" = some x) :
    ((st.command_timings (event.tool_name.getD "unknown") ++ [x]).length < 6 →
      (detect_performance_issues st event).2 = []) ∧
    (6 ≤ (st.command_timings (event.tool_name.getD "unknown") ++ [x]).length →
      ((x > median (takeLast 20 (st.command_timings (event.tool_name.getD "unknown") ++ [x])) * 2 →
        (detect_performance_issues st event).2 =
          [{ type := "slow_tool_execution",
             tool_name := event.tool_name.getD "unknown",
             execution_time := x,
             baseline := median (takeLast 20 (st.command_timings (event.tool_name.getD "unknown") ++ [x])),
             severity :=
               if x > median (takeLast 20 (st.command_timings (event.tool_name.getD "unknown") ++ [x])) * 3
               then "high" else "medium" }]) ∧
       (¬ x > median (takeLast 20 (st.command_timings (event.tool_name.getD "unknown") ++ [x])) * 2 →
        (detect_performance_issues st event).2 = []))) := by
  have hm : event.metrics ≠ [] := by
    intro h
    rw [h] at hx
    simp [List.lookup] at hx
  have hxe : mget event.metrics "execution_time" 0 = x := by
    simp [mget, hx]
  constructor
  · intro h6
    have hc : ¬ ((takeLast 20 (st.command_timings (event.tool_name.getD "unknown") ++ [x])).length > 5) := by
      rw [takeLast_length]
      omega
    unfold detect_performance_issues
    rw [if_pos ⟨ht, hm⟩]
    dsimp only
    rw [hxe, if_neg hc]
  · intro h6
    have hc : (takeLast 20 (st.command_timings (event.tool_name.getD "unknown") ++ [x])).length > 5 := by
      rw [takeLast_length]
      omega
    constructor
    · intro hfire
      unfold detect_performance_issues
      rw [if_pos ⟨ht, hm⟩]
      dsimp only
      rw [hxe, if_pos hc, if_pos hfire]
    · intro hfire
      unfold detect_performance_issues
      rw [if_pos ⟨ht, hm⟩]
      dsimp only
      rw [hxe, if_pos hc, if_neg hfire]

/-- Concrete state for the C3 witness: tool `X` has 19 recorded timings
of `1`. -/
def stPerf : DetState :=
  { initDetState with
    command_timings := fun k =>
      if k = "X" then [1, 1, 1, 1, 1, 1, 1, 1, 1, 1, 1, 1, 1, 1, 1, 1, 1, 1, 1] else [] }

/-- A `tool_use` event for tool `X` taking 10 seconds. -/
def evX : LogEvent :=
  { event_type := "tool_use", session_id := "s", timestamp := "t",
    tool_name := some "X", error := none, agent_name := none,
    success := none, metrics := [("execution_time", 10)] }

/-- The timing history of tool `X` after recording the witness event. -/
theorem stPerf_samples :
    stPerf.command_timings (evX.tool_name.getD "unknown") ++ [(10 : Rat)] =
      [1, 1, 1, 1, 1, 1, 1, 1, 1, 1, 1, 1, 1, 1, 1, 1, 1, 1, 1, 10] := by
  norm_num [stPerf, evX, initDetState]

/-- The median of the 20 recorded timings of tool `X` is `1`. -/
theorem stPerf_median :
    median (takeLast 20 (stPerf.command_timings (evX.tool_name.getD "unknown") ++ [(10 : Rat)])) = 1 := by
  rw [stPerf_samples]
  norm_num [median, takeLast, sortRat, insertSorted]

/-- Witness for C3: 19 recorded timings of `1` followed by one of `10`
(median baseline `1`) yields a single `slow_tool_execution` finding of
severity `high`. -/
theorem slow_execution_iff_witness :
    6 ≤ (stPerf.command_timings (evX.tool_name.getD "unknown") ++ [(10 : Rat)]).length ∧
    (detect_performance_issues stPerf evX).2 =
      [{ type := "slow_tool_execution", tool_name := "X", execution_time := 10,
         baseline := 1, severity := "high" }] := by
  constructor
  · rw [stPerf_samples]; norm_num
  · have h := ((slow_execution_iff stPerf evX 10 rfl rfl).2
        (by rw [stPerf_samples]; norm_num)).1
        (by rw [stPerf_median]; norm_num)
    rw [h, stPerf_median]
    norm_num [evX]

/-!
## C2 and C10 — the per-key rolling histories
-/

/-- State update of the performance detector: when it fires its
recording path, the stored timing list of the tool is appended to — nothing
is evicted. -/
theorem detect_performance_issues_fst (st : DetState) (event : LogEvent)
    (ht : event.event_type = "tool_use") (hm : event.metrics ≠ []) :
    (detect_performance_issues st event).1 =
      { st with command_timings := fun k =>
          if k = event.tool_name.getD "unknown"
          then st.command_timings (event.tool_name.getD "unknown") ++
            [mget event.metrics "execution_time" 0]
          else st.command_timings k } := by
  unfold detect_performance_issues
  rw [if_pos ⟨ht, hm⟩]
  dsimp only
  split
  · split <;> rfl
  · rfl

/-- The performance detector leaves the state unchanged on events it does
not fire for. -/
theorem detect_performance_issues_fst_id (st : DetState) (event : LogEvent)
    (h : ¬(event.event_type = "tool_use" ∧ event.metrics ≠ [])) :
    (detect_performance_issues st event).1 = st := by
  unfold detect_performance_issues
  rw [if_neg h]

/-- State update of the success-streak detector: the stored flag
list is appended to — nothing is evicted. -/
theorem detect_success_indicators_fst (st : DetState) (event : LogEvent)
    (ht : event.event_type = "agent_complete") :
    (detect_success_indicators st event).1 =
      { st with agent_success_rates := fun k =>
          if k = event.agent_name.getD "unknown"
          then st.agent_success_rates (event.agent_name.getD "unknown") ++
            [event.success.getD false]
          else st.agent_success_rates k } := by
  unfold detect_success_indicators
  rw [if_pos ht]
  dsimp only
  split
  · split <;> rfl
  · rfl

/-- The success-streak detector leaves the state unchanged on events it
does not fire for. -/
theorem detect_success_indicators_fst_id (st : DetState) (event : LogEvent)
    (h : ¬ event.event_type = "agent_complete") :
    (detect_success_indicators st event).1 = st := by
  unfold detect_success_indicators
  rw [if_neg h]

/-- `analyze_event` on an event without an error field always succeeds,
with the state threaded through the performance and success detectors. -/
theorem analyze_event_state_no_error (iso : List Rat → Rat → Bool)
    (st : DetState) (event : LogEvent) (he : event.error = none) :
    analyze_event iso st event =
      .ok ((detect_success_indicators
              (detect_performance_issues
                { st with recent_events := takeLast 1000 (st.recent_events ++ [event]) }
                event).1 event).1,
           { performance_issues :=
               (detect_performance_issues
                 { st with recent_events := takeLast 1000 (st.recent_events ++ [event]) }
                 event).2
             error_patterns := []
             success_indicators :=
               (detect_success_indicators
                 (detect_performance_issues
                   { st with recent_events := takeLast 1000 (st.recent_events ++ [event]) }
                   event).1 event).2
             anomalies :=
               detect_anomalies iso (takeLast 1000 (st.recent_events ++ [event])) event }) := by
  simp only [analyze_event, detect_error_patterns, he]
  rfl

/-- A `tool_use` event for tool `t` with a recorded execution time of 0,
used to exercise the history growth. -/
def ePerf : LogEvent :=
  { event_type := "tool_use", session_id := "s", timestamp := "t0",
    tool_name := some "t", error := none, agent_name := none,
    success := none, metrics := [("execution_time", 0)] }

/-- Processing `ePerf` succeeds and appends a `0` to the stored timing
list of tool `t`. -/
theorem analyze_event_ePerf (iso : List Rat → Rat → Bool) (st : DetState) :
    ∃ st' a, analyze_event iso st ePerf = .ok (st', a) ∧
      st'.command_timings "t" = st.command_timings "t" ++ [0] := by
  refine ⟨_, _, analyze_event_state_no_error iso st ePerf rfl, ?_⟩
  rw [detect_performance_issues_fst _ _ rfl (by decide),
    detect_success_indicators_fst_id _ _ (by simp [ePerf])]
  simp [ePerf, mget, List.lookup]

/-- Folding `analyze_event` over `n` copies of `ePerf` appends `n` zeros
to the stored timing list of tool `t`. -/
theorem processEvents_ePerf (iso : List Rat → Rat → Bool) :
    ∀ (n : Nat) (st : DetState),
    ∃ r, processEvents iso st (List.replicate n ePerf) = .ok r ∧
      r.1.command_timings "t" = st.command_timings "t" ++ List.replicate n 0 := by
  intro n
  induction n with
  | zero => exact fun st => ⟨(st, []), rfl, by simp⟩
  | succ k ih =>
      intro st
      obtain ⟨st', a, ha, hct⟩ := analyze_event_ePerf iso st
      obtain ⟨r, hr, hrt⟩ := ih st'
      refine ⟨(r.1, (if a.nonempty then [(ePerf, a)] else []) ++ r.2), ?_, ?_⟩
      · rw [List.replicate_succ]
        simp only [processEvents, ha, hr, bind, Except.bind]
      · rw [hrt, hct]
        simp [List.replicate_succ]

/-- C2 counterexample: after processing 21 `tool_use` events for tool
`t`, the stored per-tool timing history has length 21 — the invariant
"length ≤ 20 at all times, oldest evicted FIFO" fails for the stored
history (`command_timings` is an unbounded `defaultdict(list)`). -/
theorem rolling_history_bound_counterexample :
    (match processEvents (fun _ _ => false) initDetState (List.replicate 21 ePerf) with
     | .ok r => (r.1.command_timings "t").length
     | .error _ => 0) = 21 := by
  obtain ⟨r, hr, hrt⟩ := processEvents_ePerf (fun _ _ => false) 21 initDetState
  rw [hr]
  dsimp only
  rw [hrt]
  simp [initDetState]

/-- C2 (amended): recording appends to the stored per-key history without
any eviction (the stored lists grow unboundedly), while every read the
detectors base decisions on is windowed to the most recent 20 timings or
10 success flags, and those windows never exceed their bounds. -/
theorem rolling_history_window_amended (st : DetState) (event : LogEvent) :
    (event.event_type = "tool_use" → event.metrics ≠ [] →
      (detect_performance_issues st event).1.command_timings (event.tool_name.getD "unknown") =
        st.command_timings (event.tool_name.getD "unknown") ++
          [mget event.metrics "execution_time" 0]) ∧
    (event.event_type = "agent_complete" →
      (detect_success_indicators st event).1.agent_success_rates (event.agent_name.getD "unknown") =
        st.agent_success_rates (event.agent_name.getD "unknown") ++
          [event.success.getD false]) ∧
    (takeLast 20 (st.command_timings (event.tool_name.getD "unknown") ++
        [mget event.metrics "execution_time" 0])).length ≤ 20 ∧
    (takeLast 10 (st.agent_success_rates (event.agent_name.getD "unknown") ++
        [event.success.getD false])).length ≤ 10 := by
  refine ⟨?_, ?_, ?_, ?_⟩
  · intro ht hm
    rw [detect_performance_issues_fst st event ht hm]
    simp
  · intro ht
    rw [detect_success_indicators_fst st event ht]
    simp
  · rw [takeLast_length]; omega
  · rw [takeLast_length]; omega

/-- Witness for the amended C2 at concrete states and events. -/
theorem rolling_history_window_amended_witness :
    (detect_performance_issues initDetState ePerf).1.command_timings "t" = [0] ∧
    (detect_success_indicators stSucc evA).1.agent_success_rates "A" =
      [true, true, true, true, true] := by
  constructor
  · have h := (rolling_history_window_amended initDetState ePerf).1 rfl (by decide)
    simpa [initDetState] using h
  · have h := (rolling_history_window_amended stSucc evA).2.1 rfl
    simpa [stSucc, initDetState] using h

/-!
## C10 — the default execution time of 0
-/

/-- A `tool_use` event for tool `t` whose metrics mapping is non-empty
but lacks an `execution_time` key. -/
def eNo : LogEvent :=
  { event_type := "tool_use", session_id := "s", timestamp := "t0",
    tool_name := some "t", error := none, agent_name := none,
    success := none, metrics := [("m", 1)] }

/-- A `tool_use` event for tool `t` with execution time `4`. -/
def e4 : LogEvent :=
  { event_type := "tool_use", session_id := "s", timestamp := "t0",
    tool_name := some "t", error := none, agent_name := none,
    success := none, metrics := [("execution_time", 4)] }

/-- Sequential processing of a list of events by the performance
state update of the detector, as `analyze_event` invokes it once per event. -/
def perfRun (st : DetState) (events : List LogEvent) : DetState :=
  events.foldl (fun s e => (detect_performance_issues s e).1) st

/-- Running `n` copies of `e4` appends `n` timings of `4` for tool `t`. -/
theorem perfRun_e4 : ∀ (n : Nat) (st : DetState),
    (perfRun st (List.replicate n e4)).command_timings "t" =
      st.command_timings "t" ++ List.replicate n 4 := by
  intro n
  induction n with
  | zero => intro st; simp [perfRun]
  | succ k ih =>
      intro st
      rw [List.replicate_succ]
      have hstep : (detect_performance_issues st e4).1.command_timings "t" =
          st.command_timings "t" ++ [4] := by
        rw [detect_performance_issues_fst _ _ rfl (by decide)]
        simp [e4, mget, List.lookup]
      have hrun : perfRun st (e4 :: List.replicate k e4) =
          perfRun (detect_performance_issues st e4).1 (List.replicate k e4) := rfl
      rw [hrun, ih, hstep, List.replicate_succ]
      simp

/-- C10 counterexample: after the default `0` is recorded for tool `t`
and 19 further timings arrive, the list the next baseline median is
computed over — the last 20 recorded timings plus the new sample — no
longer contains the recorded `0`, so the zero does not participate in
every subsequent baseline median. -/
theorem zero_participation_counterexample :
    (perfRun initDetState (eNo :: List.replicate 19 e4)).command_timings "t" =
      0 :: List.replicate 19 4 ∧
    (0 : Rat) ∈ (perfRun initDetState (eNo :: List.replicate 19 e4)).command_timings "t" ∧
    (0 : Rat) ∉ takeLast 20 ((perfRun initDetState (eNo :: List.replicate 19 e4)).command_timings "t"
        ++ [mget e4.metrics "execution_time" 0]) := by
  have h0 : (detect_performance_issues initDetState eNo).1.command_timings "t" = [0] := by
    rw [detect_performance_issues_fst _ _ rfl (by decide)]
    simp [eNo, mget, initDetState, List.lookup]
  have hrun : (perfRun initDetState (eNo :: List.replicate 19 e4)).command_timings "t" =
      0 :: List.replicate 19 4 := by
    have h1 : perfRun initDetState (eNo :: List.replicate 19 e4) =
        perfRun (detect_performance_issues initDetState eNo).1 (List.replicate 19 e4) := rfl
    rw [h1, perfRun_e4, h0]
    rfl
  have hm4 : mget e4.metrics "execution_time" 0 = 4 := by simp [e4, mget, List.lookup]
  refine ⟨hrun, ?_, ?_⟩
  · rw [hrun]
    exact List.mem_cons_self _ _
  · rw [hrun, hm4]
    have ht : takeLast 20 (((0:Rat) :: List.replicate 19 4) ++ [(4:Rat)]) =
        List.replicate 19 (4:Rat) ++ [4] := by
      simp [takeLast]
    rw [ht]
    intro hmem
    rcases List.mem_append.mp hmem with h | h
    · exact absurd (List.eq_of_mem_replicate h) (by norm_num)
    · simp at h

/-- C10 (amended): a `tool_use` event with non-empty metrics lacking an
`execution_time` key records the default `0` into the timing
history, and that zero participates in every subsequent baseline median
history of the tool, and participates while still among the last 20 recorded samples
(that is, until 20 newer samples have been recorded). -/
theorem zero_default_recorded (st : DetState) (event : LogEvent)
    (ht : event.event_type = "tool_use") (hm : event.metrics ≠ [])
    (hno : event.metrics.lookup "execution_time" = none) :
    (detect_performance_issues st event).1.command_timings (event.tool_name.getD "unknown") =
      st.command_timings (event.tool_name.getD "unknown") ++ [0] ∧
    (∀ later : List Rat, later.length ≤ 19 →
      (0 : Rat) ∈ takeLast 20
        ((st.command_timings (event.tool_name.getD "unknown") ++ [0]) ++ later)) := by
  constructor
  · rw [detect_performance_issues_fst st event ht hm]
    simp [mget, hno]
  · intro later hlen
    rw [List.append_assoc]
    have hk : (st.command_timings (event.tool_name.getD "unknown")).length +
        ((0:Rat) :: later).length - 20 ≤
        (st.command_timings (event.tool_name.getD "unknown")).length := by
      simp only [List.length_cons]
      omega
    simp only [takeLast, List.singleton_append, List.length_append]
    rw [List.drop_append_of_le_length hk]
    simp

/-- Witness for the amended C10: `eNo` records a `0` for tool `t`, and
that zero is still inside the 20-sample read window after 19 further
recordings. -/
theorem zero_default_recorded_witness :
    (detect_performance_issues initDetState eNo).1.command_timings "t" = [0] ∧
    (0 : Rat) ∈ takeLast 20 ((initDetState.command_timings "t" ++ [0]) ++ List.replicate 19 4) := by
  have h := zero_default_recorded initDetState eNo rfl (by decide) (by simp [eNo, List.lookup])
  constructor
  · simpa [eNo, initDetState] using h.1
  · have h2 := h.2 (List.replicate 19 4) (by simp)
    simpa [eNo] using h2

/-!
## C4 — the recurring-error detector
-/

/-- Whether a window event counts as a near-duplicate of the current
error message: a `tool_use` event with a truthy string error whose
similarity to the message exceeds `0.8`. -/
def isSimilarErr (msg : String) (ev : LogEvent) : Bool :=
  decide (ev.event_type = "tool_use") &&
    (match ev.error with
     | some (PyVal.pstr s) => decide (s ≠ "") && decide (similarity_score s msg > 0.8)
     | _ => false)

/-- The number of near-duplicates of `msg` in a window. -/
def similarCount (window : List LogEvent) (msg : String) : Nat :=
  (window.filter (isSimilarErr msg)).length

/-- The similarity of a string with a non-empty token set to itself is
`1`. -/
theorem similarity_score_self (a : String) (h : tokens a ≠ ∅) :
    similarity_score a a = 1 := by
  unfold similarity_score
  rw [if_neg (by simp [h]), Finset.inter_self, Finset.union_self, if_neg h]
  have hc : ((tokens a).card : Rat) ≠ 0 := by
    have : 0 < (tokens a).card :=
      Finset.card_pos.mpr (Finset.nonempty_iff_ne_empty.mpr h)
    exact_mod_cast this.ne'
  exact div_self hc

/-- On a window whose truthy `tool_use` errors are all strings, the
comprehension of `_detect_error_patterns` returns exactly the
near-duplicates of the message. -/
theorem collectSimilar_ok (msg : String) : ∀ (window : List LogEvent),
    (∀ ev ∈ window, ev.event_type = "tool_use" →
      (ev.error.elim false PyVal.truthy) = true →
      (ev.error.elim false PyVal.isStr) = true) →
    collectSimilar (PyVal.pstr msg) window =
      .ok (window.filter (isSimilarErr msg)) := by
  intro window
  induction window with
  | nil => intro _; rfl
  | cons ev rest ih =>
      intro hw
      have hrest := fun e he => hw e (List.mem_cons_of_mem _ he)
      by_cases hc : ev.event_type = "tool_use" ∧ (ev.error.elim false PyVal.truthy) = true
      · have hstr := hw ev (List.mem_cons_self _ _) hc.1 hc.2
        rcases hev : ev.error with - | v
        · rw [hev] at hc
          simp [Option.elim] at hc
        · rcases v with s | n
          · have hs : s ≠ "" := by
              have := hc.2
              rw [hev] at this
              simpa [PyVal.truthy] using this
            simp only [collectSimilar]
            rw [if_pos hc]
            simp only [hev, similarityScoreDyn, ih hrest, bind, Except.bind]
            rw [List.filter_cons]
            have hsim : isSimilarErr msg ev =
                decide (similarity_score s msg > 0.8) := by
              simp [isSimilarErr, hc.1, hev, hs]
            rw [hsim]
            by_cases hgt : similarity_score s msg > 0.8
            · simp [hgt]
            · simp [hgt]
          · rw [hev] at hstr
            simp [PyVal.isStr] at hstr
      · have hskip : isSimilarErr msg ev = false := by
          rw [isSimilarErr]
          rcases not_and_or.mp hc with h | h
          · simp [h]
          · rcases hev : ev.error with - | v
            · simp [hev]
            · rcases v with s | n
              · rw [hev] at h
                simp [PyVal.truthy] at h
                simp [hev, h]
              · simp [hev]
        simp only [collectSimilar]
        rw [if_neg hc, ih hrest, List.filter_cons, hskip]
        simp

/-- `analyze_event` when the error detector returns a known finding
list. -/
theorem analyze_event_of_errs (iso : List Rat → Rat → Bool) (st : DetState)
    (event : LogEvent) (errs : List ErrFinding)
    (hd : detect_error_patterns (takeLast 1000 (st.recent_events ++ [event])) event = .ok errs) :
    analyze_event iso st event =
      .ok ((detect_success_indicators
              (detect_performance_issues
                { st with recent_events := takeLast 1000 (st.recent_events ++ [event]) }
                event).1 event).1,
           { performance_issues :=
               (detect_performance_issues
                 { st with recent_events := takeLast 1000 (st.recent_events ++ [event]) }
                 event).2
             error_patterns := errs
             success_indicators :=
               (detect_success_indicators
                 (detect_performance_issues
                   { st with recent_events := takeLast 1000 (st.recent_events ++ [event]) }
                   event).1 event).2
             anomalies :=
               detect_anomalies iso (takeLast 1000 (st.recent_events ++ [event])) event }) := by
  simp only [analyze_event, hd]
  rfl

/-- C4: a `tool_use` event carrying a non-empty string error, processed
when the 1000-event window (which then includes the event itself)
contains near-duplicate `tool_use` errors, emits a `recurring_error`
finding at `high` severity carrying the occurrence count and the error
message exactly when that count exceeds 3. -/
theorem recurring_error_iff (iso : List Rat → Rat → Bool) (st : DetState)
    (event : LogEvent) (msg : String)
    (ht : event.event_type = "tool_use")
    (he : event.error = some (PyVal.pstr msg)) (hmsg : msg ≠ "")
    (hw : ∀ ev ∈ takeLast 1000 (st.recent_events ++ [event]),
      ev.event_type = "tool_use" → (ev.error.elim false PyVal.truthy) = true →
      (ev.error.elim false PyVal.isStr) = true) :
    ∃ st' a, analyze_event iso st event = .ok (st', a) ∧
      ((3 < similarCount (takeLast 1000 (st.recent_events ++ [event])) msg →
        a.error_patterns =
          [{ type := "recurring_error", tool_name := event.tool_name.getD "unknown",
             error_message := PyVal.pstr msg,
             occurrence_count := similarCount (takeLast 1000 (st.recent_events ++ [event])) msg,
             severity := "high" }]) ∧
       (¬ 3 < similarCount (takeLast 1000 (st.recent_events ++ [event])) msg →
        a.error_patterns = [])) := by
  have hdet : detect_error_patterns (takeLast 1000 (st.recent_events ++ [event])) event =
      .ok (if similarCount (takeLast 1000 (st.recent_events ++ [event])) msg > 3 then
        [{ type := "recurring_error", tool_name := event.tool_name.getD "unknown",
           error_message := PyVal.pstr msg,
           occurrence_count := similarCount (takeLast 1000 (st.recent_events ++ [event])) msg,
           severity := "high" }] else []) := by
    unfold detect_error_patterns
    simp only [he]
    rw [if_pos ⟨ht, by simp [PyVal.truthy, hmsg]⟩]
    rw [collectSimilar_ok msg _ hw]
    simp only [bind, Except.bind, similarCount]
    split
    · rfl
    · rfl
  refine ⟨_, _, analyze_event_of_errs iso st event _ hdet, ?_, ?_⟩
  · intro h3
    dsimp only
    rw [if_pos h3]
  · intro h3
    dsimp only
    rw [if_neg h3]

/-- A `tool_use` event failing with the recurring error text. -/
def eErr : LogEvent :=
  { event_type := "tool_use", session_id := "s", timestamp := "t0",
    tool_name := some "Bash", error := some (PyVal.pstr "connection timeout after 30s"),
    agent_name := none, success := none, metrics := [] }

/-- Detector state in which the recent-event window already holds three
occurrences of the failing event. -/
def stErr : DetState :=
  { initDetState with recent_events := [eErr, eErr, eErr] }

/-- Witness for C4: the fourth `tool_use` event with the identical error
text emits a `recurring_error` finding with occurrence count 4 at `high`
severity. -/
theorem recurring_error_iff_witness :
    (match analyze_event (fun _ _ => false) stErr eErr with
     | .ok (_, a) => a.error_patterns
     | .error _ => []) =
      [{ type := "recurring_error", tool_name := "Bash",
         error_message := PyVal.pstr "connection timeout after 30s",
         occurrence_count := 4, severity := "high" }] := by
  have hwin : takeLast 1000 (stErr.recent_events ++ [eErr]) = [eErr, eErr, eErr, eErr] := by
    simp [stErr, takeLast, initDetState]
  have h1 : similarity_score "connection timeout after 30s" "connection timeout after 30s" = 1 :=
    similarity_score_self _ (by decide)
  have hsim : isSimilarErr "connection timeout after 30s" eErr = true := by
    simp only [isSimilarErr, eErr, h1, Bool.and_eq_true, decide_eq_true_eq]
    exact ⟨trivial, by decide, by norm_num⟩
  have hcount : similarCount (takeLast 1000 (stErr.recent_events ++ [eErr]))
      "connection timeout after 30s" = 4 := by
    rw [hwin]
    simp [similarCount, hsim]
  obtain ⟨st', a, hae, hfire, -⟩ :=
    recurring_error_iff (fun _ _ => false) stErr eErr "connection timeout after 30s"
      rfl rfl (by decide)
      (by
        intro ev hev hta htb
        rw [hwin] at hev
        simp only [List.mem_cons, List.not_mem_nil, or_false] at hev
        rcases hev with rfl | rfl | rfl | rfl <;> decide)
  have h3 : 3 < similarCount (takeLast 1000 (stErr.recent_events ++ [eErr]))
      "connection timeout after 30s" := by
    rw [hcount]
    norm_num
  rw [hae]
  dsimp only
  rw [hfire h3, hcount]
  rfl

/-!
## C1 — detector exceptions and the event loop
-/

/-- A `tool_use` event whose `error` payload is a (truthy) integer, not a
string: `_similarity_score` raises `AttributeError` on it. -/
def eBad : LogEvent :=
  { event_type := "tool_use", session_id := "s", timestamp := "t0",
    tool_name := some "Bash", error := some (PyVal.pint 5),
    agent_name := none, success := none, metrics := [] }

/-- The comprehension of `_detect_error_patterns` raises as soon as the
current message is a non-string and the window holds any `tool_use` event
with a truthy error. -/
theorem collectSimilar_pint (n : Int) : ∀ (window : List LogEvent),
    (∃ ev ∈ window, ev.event_type = "tool_use" ∧
      (ev.error.elim false PyVal.truthy) = true) →
    collectSimilar (PyVal.pint n) window =
      .error "AttributeError: object has no attribute lower" := by
  intro window
  induction window with
  | nil =>
      rintro ⟨ev, h, -⟩
      exact absurd h (List.not_mem_nil ev)
  | cons e rest ih =>
      rintro ⟨ev, hev, hcond⟩
      by_cases hc : e.event_type = "tool_use" ∧ (e.error.elim false PyVal.truthy) = true
      · simp only [collectSimilar]
        rw [if_pos hc]
        rcases he : e.error with - | v
        · rw [he] at hc
          simp at hc
        · simp only [he]
          rcases v with s | m <;> simp [similarityScoreDyn, bind, Except.bind]
      · simp only [collectSimilar]
        rw [if_neg hc]
        apply ih
        rcases List.mem_cons.mp hev with rfl | h
        · exact absurd hcond hc
        · exact ⟨ev, h, hcond⟩

/-- Analyzing `eBad` raises out of `_detect_error_patterns`, whatever the
detector state: there is no per-detector exception handling in
`analyze_event`. -/
theorem analyze_event_eBad (iso : List Rat → Rat → Bool) (st : DetState) :
    analyze_event iso st eBad =
      .error "AttributeError: object has no attribute lower" := by
  have hwin : eBad ∈ takeLast 1000 (st.recent_events ++ [eBad]) := by
    have hk : (st.recent_events).length + 1 - 1000 ≤ (st.recent_events).length := by omega
    simp only [takeLast, List.length_append, List.length_cons, List.length_nil]
    rw [List.drop_append_of_le_length (le_of_eq_of_le (by simp) hk)]
    exact List.mem_append_right _ (by simp)
  have hdet : detect_error_patterns (takeLast 1000 (st.recent_events ++ [eBad])) eBad =
      .error "AttributeError: object has no attribute lower" := by
    unfold detect_error_patterns
    simp only [show eBad.error = some (PyVal.pint 5) from rfl]
    rw [if_pos ⟨rfl, by decide⟩]
    rw [collectSimilar_pint 5 _ ⟨eBad, hwin, rfl, by decide⟩]
    rfl
  simp only [analyze_event, hdet]
  rfl

/-- An exception from `analyze_event` on one event makes the whole event
loop fail: no later event is analyzed. -/
theorem processEvents_error_of (iso : List Rat → Rat → Bool) :
    ∀ (pre : List LogEvent) (st : DetState) (bad : LogEvent) (post : List LogEvent)
      (st' : DetState) (ps : List (LogEvent × Analysis)) (m : String),
    processEvents iso st pre = .ok (st', ps) →
    analyze_event iso st' bad = .error m →
    processEvents iso st (pre ++ bad :: post) = .error m := by
  intro pre
  induction pre with
  | nil =>
      intro st bad post st' ps m hp hb
      simp only [processEvents, Except.ok.injEq, Prod.mk.injEq] at hp
      obtain ⟨rfl, -⟩ := hp
      simp only [List.nil_append, processEvents, hb, bind, Except.bind]
  | cons e pre ih =>
      intro st bad post st' ps m hp hb
      simp only [processEvents, bind, Except.bind] at hp ⊢
      cases hae : analyze_event iso st e with
      | error m2 => rw [hae] at hp; simp at hp
      | ok p =>
          rw [hae] at hp
          dsimp only at hp ⊢
          cases hrest : processEvents iso p.1 pre with
          | error m3 => rw [hrest] at hp; simp at hp
          | ok q =>
              rw [hrest] at hp
              dsimp only at hp
              simp only [Except.ok.injEq, Prod.mk.injEq] at hp
              obtain ⟨rfl, -⟩ := hp
              simp only [List.append_eq]
              rw [ih p.1 bad post q.1 q.2 m (by rw [hrest]) hb]

/-- C1 counterexample: a single detector exception (an integer `error`
payload reaching `_similarity_score`) is not caught per detector and not
treated as an empty finding set — `analyze_log_file` catches it only at
file level, aborts the loop and returns an error result, so the later
event `eErr` is never analyzed. -/
theorem detector_exception_counterexample :
    analyze_log_file (fun _ _ => false) [eBad, eErr] =
      .error ("Failed to analyze log file: AttributeError: object has no attribute lower") := by
  have h := processEvents_error_of (fun _ _ => false) [] initDetState eBad [eErr]
    initDetState [] _ rfl (analyze_event_eBad _ _)
  simp only [List.nil_append] at h
  unfold analyze_log_file
  rw [h]
  rfl

/-- C1 (amended): an internal exception inside a detector propagates out
of `analyze_event`; `analyze_log_file` catches it only around the whole
event loop, turning the entire analysis into an error result — the
remaining event stream is aborted rather than continued with an empty
finding set for that detector. -/
theorem detector_exception_aborts (iso : List Rat → Rat → Bool)
    (pre post : List LogEvent) (bad : LogEvent) (st : DetState)
    (ps : List (LogEvent × Analysis)) (m : String)
    (hpre : processEvents iso initDetState pre = .ok (st, ps))
    (hbad : analyze_event iso st bad = .error m) :
    analyze_log_file iso (pre ++ bad :: post) =
      .error ("Failed to analyze log file: " ++ m) := by
  unfold analyze_log_file
  rw [processEvents_error_of iso pre initDetState bad post st ps m hpre hbad]

/-- Witness for the amended C1 at a concrete stream. -/
theorem detector_exception_aborts_witness :
    analyze_log_file (fun _ _ => false) [eBad, eErr] =
      .error ("Failed to analyze log file: " ++
        "AttributeError: object has no attribute lower") := by
  have h := detector_exception_aborts (fun _ _ => false) [] [eErr] eBad
    initDetState [] "AttributeError: object has no attribute lower" rfl
    (analyze_event_eBad _ _)
  exact h

/-!
## C6 — long-workflow extraction
-/

/-- The number of workflow records emitted after `n` more tool entries
arrive on top of an accumulated sequence of length `c`: one each time the
length reaches 5, restarting from the 2 carried-over entries. -/
def emitCount (c n : Nat) : Nat :=
  if c + n < 5 then 0 else (c + n - 5) / 3 + 1

/-- Emitting at length 5 and restarting with 2 entries needs 3 more
entries per further record. -/
theorem emitCount_step4 (n : Nat) : 1 + emitCount 2 n = emitCount 4 (n + 1) := by
  simp only [emitCount]
  by_cases h : 2 + n < 5
  · rw [if_pos h, if_neg (by omega)]
    omega
  · rw [if_neg h, if_neg (by omega)]
    omega

/-- Below the emission threshold, growing the accumulator by one entry
just shifts the remaining count. -/
theorem emitCount_step (c n : Nat) : emitCount (c + 1) n = emitCount c (n + 1) := by
  simp only [emitCount]
  by_cases h : c + 1 + n < 5
  · rw [if_pos h, if_pos (by omega)]
  · rw [if_neg h, if_neg (by omega)]
    omega

/-- The loop of `find_tool_sequences` only reacts to entries with a
truthy `tool_name`. -/
theorem fts_eq_entries (h : List String → String) :
    ∀ (logs : List SLog) (s : List ToolEntry × List SeqRec),
    logs.foldl (ftsStep h) s = (logs.filterMap entryOf).foldl (entStep h) s := by
  intro logs
  induction logs with
  | nil => intro s; rfl
  | cons log rest ih =>
      intro s
      rw [List.foldl_cons, List.filterMap_cons]
      cases he : entryOf log with
      | none =>
          have hs : ftsStep h s log = s := by simp [ftsStep, he]
          rw [hs, ih s]
      | some ent =>
          have hs : ftsStep h s log = entStep h s ent := by simp [ftsStep, he]
          rw [hs, List.foldl_cons, ih (entStep h s ent)]

/-- Invariant of the accumulation loop: starting from an accumulator of
length at most 4, the number of emitted records is `emitCount`, every
emitted record has length 5, and the accumulator stays at length at most
4. -/
theorem entStep_fold (h : List String → String) :
    ∀ (ents : List ToolEntry) (cur : List ToolEntry) (recs : List SeqRec),
    cur.length ≤ 4 →
    ((ents.foldl (entStep h) (cur, recs)).2.length =
      recs.length + emitCount cur.length ents.length) ∧
    (∀ r ∈ (ents.foldl (entStep h) (cur, recs)).2, r ∈ recs ∨ r.length = 5) ∧
    (ents.foldl (entStep h) (cur, recs)).1.length ≤ 4 := by
  intro ents
  induction ents with
  | nil =>
      intro cur recs hc
      refine ⟨?_, fun r hr => Or.inl hr, hc⟩
      simp only [List.foldl_nil, emitCount, List.length_nil]
      rw [if_pos (by omega)]
      omega
  | cons ent ents ih =>
      intro cur recs hc
      by_cases h5 : (cur ++ [ent]).length ≥ 5
      · have hc4 : cur.length = 4 := by
          simp only [List.length_append, List.length_singleton] at h5
          omega
        have hstep : entStep h (cur, recs) ent =
            (takeLast 2 (cur ++ [ent]), recs ++ [mkSeqRec h (cur ++ [ent])]) := by
          simp only [entStep]
          rw [if_pos h5]
        have hlen2 : (takeLast 2 (cur ++ [ent])).length ≤ 4 := by
          rw [takeLast_length]
          omega
        have h2 : (takeLast 2 (cur ++ [ent])).length = 2 := by
          rw [takeLast_length]
          simp only [List.length_append, List.length_singleton]
          omega
        rw [List.foldl_cons, hstep]
        obtain ⟨l1, l2, l3⟩ :=
          ih (takeLast 2 (cur ++ [ent])) (recs ++ [mkSeqRec h (cur ++ [ent])]) hlen2
        refine ⟨?_, ?_, l3⟩
        · rw [l1, h2, List.length_append, List.length_singleton, List.length_cons, hc4]
          rw [← emitCount_step4]
          omega
        · intro r hr
          rcases l2 r hr with hmem | hl
          · rcases List.mem_append.mp hmem with hm | hm
            · exact Or.inl hm
            · right
              simp only [List.mem_singleton] at hm
              subst hm
              simp only [mkSeqRec, List.length_append, List.length_singleton, hc4]
          · exact Or.inr hl
      · have hstep : entStep h (cur, recs) ent = (cur ++ [ent], recs) := by
          simp only [entStep]
          rw [if_neg h5]
        have hlen : (cur ++ [ent]).length ≤ 4 := by omega
        rw [List.foldl_cons, hstep]
        obtain ⟨l1, l2, l3⟩ := ih (cur ++ [ent]) recs hlen
        refine ⟨?_, l2, l3⟩
        rw [l1, List.length_append, List.length_singleton, List.length_cons]
        rw [emitCount_step]

/-- C6: accumulation emits exactly one workflow record each time the
running sequence of tool-bearing entries reaches length 5, restarting
with the last 2 entries as overlap; every emitted record has length 5,
the number of records over a session with `n` tool-bearing events is
`(n - 5) / 3 + 1` for `n ≥ 5` (0 below), and in particular a session
with 7 consecutive tool-bearing events emits exactly one record. -/
theorem find_tool_sequences_spec (h : List String → String) (logs : List SLog) :
    ((find_tool_sequences h logs).length =
      if (logs.filterMap entryOf).length < 5 then 0
      else ((logs.filterMap entryOf).length - 5) / 3 + 1) ∧
    (∀ r ∈ find_tool_sequences h logs, r.length = 5) ∧
    (∀ (cur : List ToolEntry) (recs : List SeqRec) (ent : ToolEntry),
      (cur ++ [ent]).length ≥ 5 →
      entStep h (cur, recs) ent =
        (takeLast 2 (cur ++ [ent]), recs ++ [mkSeqRec h (cur ++ [ent])])) ∧
    ((logs.filterMap entryOf).length = 7 → (find_tool_sequences h logs).length = 1) := by
  have heq : find_tool_sequences h logs =
      ((logs.filterMap entryOf).foldl (entStep h) ([], [])).2 := by
    unfold find_tool_sequences
    rw [fts_eq_entries]
  have hfold := entStep_fold h (logs.filterMap entryOf) [] [] (by simp)
  refine ⟨?_, ?_, ?_, ?_⟩
  · rw [heq, hfold.1]
    simp [emitCount]
  · intro r hr
    rw [heq] at hr
    rcases hfold.2.1 r hr with hmem | hl
    · exact absurd hmem (List.not_mem_nil r)
    · exact hl
  · intro cur recs ent h5
    simp only [entStep]
    rw [if_pos h5]
  · intro h7
    rw [heq, hfold.1, h7]
    decide

/-- A tool-bearing session log entry. -/
def sl (t : String) : SLog :=
  { session_id := "s", timestamp := some "t0", tool_name := some t,
    success := some true, error := none, execution_time := none }

/-- Seven consecutive tool-bearing events. -/
def logs7 : List SLog :=
  [sl "A", sl "B", sl "C", sl "D", sl "E", sl "F", sl "G"]

/-- Witness for C6: a session of 7 consecutive tool-bearing events emits
exactly one workflow record, of length 5. -/
theorem find_tool_sequences_spec_witness :
    (logs7.filterMap entryOf).length = 7 ∧
    (find_tool_sequences (fun _ => "wf") logs7).length = 1 ∧
    (∀ r ∈ find_tool_sequences (fun _ => "wf") logs7, r.length = 5) := by
  refine ⟨by decide, ?_, ?_⟩
  · exact (find_tool_sequences_spec (fun _ => "wf") logs7).2.2.2 (by decide)
  · exact (find_tool_sequences_spec (fun _ => "wf") logs7).2.1

/-!
## C7 — repeated tool-subsequence detection
-/

/-- Membership in the first-occurrence deduplication is plain
membership. -/
theorem uniqueFirst_mem [DecidableEq α] (l : List α) (a : α) :
    a ∈ uniqueFirst l ↔ a ∈ l := by
  have key : ∀ (l : List α) (acc : List α),
      a ∈ l.foldl (fun acc t => if t ∈ acc then acc else acc ++ [t]) acc ↔
        a ∈ acc ∨ a ∈ l := by
    intro l
    induction l with
    | nil => intro acc; simp
    | cons t rest ih =>
        intro acc
        rw [List.foldl_cons, ih]
        by_cases ht : t ∈ acc
        · rw [if_pos ht]
          simp only [List.mem_cons]
          constructor
          · rintro (h | h)
            · exact Or.inl h
            · exact Or.inr (Or.inr h)
          · rintro (h | rfl | h)
            · exact Or.inl h
            · exact Or.inl ht
            · exact Or.inr h
        · rw [if_neg ht]
          simp only [List.mem_append, List.mem_singleton, List.mem_cons]
          tauto
  rw [uniqueFirst, key]
  simp

/-- The error-retry pass never produces a `tool_sequence` pattern. -/
theorem errorRetry_not_toolseq (logs : List SLog) (s : List String) (c : Nat)
    (pc : Bool) (sn : String) :
    Pattern.tool_sequence s c pc sn ∉ errorRetryPatterns logs := by
  intro hmem
  obtain ⟨i, -, hfi⟩ := List.mem_filterMap.mp hmem
  split at hfi
  · split at hfi
    · simp at hfi
    · simp at hfi
  · simp at hfi

/-- C7: a `tool_sequence` pattern for an ordered triple — carrying the
occurrence count of the triple among all length-3 windows of consecutive
tool-bearing entries and the identifier derived from the first and last
tool — is reported exactly when the triple occurs at least twice; and
every reported `tool_sequence` pattern arises this way. -/
theorem detect_patterns_tool_triples (logs : List SLog) :
    (∀ t : String × String × String,
      (Pattern.tool_sequence [t.1, t.2.1, t.2.2] ((toolTriples logs).count t) true
        (suggestedName t.1 t.2.2) ∈ detect_patterns logs) ↔
        2 ≤ (toolTriples logs).count t) ∧
    (∀ (s : List String) (c : Nat) (pc : Bool) (sn : String),
      Pattern.tool_sequence s c pc sn ∈ detect_patterns logs →
      ∃ t : String × String × String,
        s = [t.1, t.2.1, t.2.2] ∧ c = (toolTriples logs).count t ∧
        2 ≤ c ∧ pc = true ∧ sn = suggestedName t.1 t.2.2) := by
  constructor
  · intro t
    unfold detect_patterns
    rw [List.mem_append]
    constructor
    · rintro (h | h)
      · obtain ⟨a, -, hfa⟩ := List.mem_filterMap.mp h
        by_cases h2 : (toolTriples logs).count a ≥ 2
        · rw [if_pos h2] at hfa
          simp only [Option.some.injEq, Pattern.tool_sequence.injEq] at hfa
          obtain ⟨hseq, hcount, -, -⟩ := hfa
          have hat : a = t := by
            obtain ⟨a1, a2, a3⟩ := a
            obtain ⟨t1, t2, t3⟩ := t
            simp only [List.cons.injEq] at hseq
            simp only [Prod.mk.injEq]
            exact ⟨hseq.1, hseq.2.1, hseq.2.2.1⟩
          rw [← hat]
          exact h2
        · rw [if_neg h2] at hfa
          exact absurd hfa (Option.noConfusion)
      · exact absurd h (errorRetry_not_toolseq logs _ _ _ _)
    · intro h2
      left
      apply List.mem_filterMap.mpr
      refine ⟨t, ?_, ?_⟩
      · rw [uniqueFirst_mem]
        exact List.count_pos_iff.mp (by omega)
      · rw [if_pos h2]
  · intro s c pc sn hmem
    unfold detect_patterns at hmem
    rcases List.mem_append.mp hmem with h | h
    · obtain ⟨a, -, hfa⟩ := List.mem_filterMap.mp h
      by_cases h2 : (toolTriples logs).count a ≥ 2
      · rw [if_pos h2] at hfa
        simp only [Option.some.injEq, Pattern.tool_sequence.injEq] at hfa
        exact ⟨a, hfa.1.symm, hfa.2.1.symm, hfa.2.1 ▸ h2, hfa.2.2.1.symm, hfa.2.2.2.symm⟩
      · rw [if_neg h2] at hfa
        exact absurd hfa (Option.noConfusion)
    · exact absurd h (errorRetry_not_toolseq logs _ _ _ _)

/-- Five tool-bearing events in which the ordered triple (A, B, A)
occurs twice. -/
def logsPat : List SLog := [sl "A", sl "B", sl "A", sl "B", sl "A"]

/-- Witness for C7: the triple (A, B, A) occurs twice in `logsPat` and is
reported with its count and the suggested identifier `a_a_flow`. -/
theorem detect_patterns_tool_triples_witness :
    2 ≤ (toolTriples logsPat).count ("A", "B", "A") ∧
    Pattern.tool_sequence ["A", "B", "A"] 2 true "a_a_flow" ∈ detect_patterns logsPat := by
  refine ⟨by decide, ?_⟩
  have h := ((detect_patterns_tool_triples logsPat).1 ("A", "B", "A")).mpr (by decide)
  have hc : (toolTriples logsPat).count ("A", "B", "A") = 2 := by decide
  have hs : suggestedName "A" "A" = "a_a_flow" := by decide
  rw [hc, hs] at h
  exact h
